import Mathlib

/-!
Shallow embedding of the mini-rag frontend's document ingestion lifecycle:
the upload/polling logic of `frontend/src/components/DocumentUploader.tsx`,
the transport wrapper of `api.ts`, and the delete handler of `App.tsx`.

Strings are Lean `String`s (lists of characters); JS numbers that only ever
hold integers are `Nat`; progress fractions are `ℚ`.  JS-specific semantics
(truthiness of strings, single-occurrence `String.replace`, the concrete
regex used for progress parsing) are modelled by dedicated helper functions.
-/

/-- JS `a || b` for an optional string `a`: `undefined` and the empty string
are falsy, any other string is returned as is. -/
def jsOr (a : Option String) (b : String) : String :=
  match a with
  | some s => if s = "" then b else s
  | none => b

/-- JS `String.prototype.includes` on character lists: `sub` occurs as a
contiguous run somewhere in the list. -/
def listIncludes (sub : List Char) : List Char → Bool
  | [] => sub.isEmpty
  | c :: t => sub.isPrefixOf (c :: t) || listIncludes sub t

/-- JS `s.includes(sub)`. -/
def strIncludes (s sub : String) : Bool := listIncludes sub.data s.data

/-- Remove the first occurrence of `pat` from a character list; if `pat`
does not occur, the list is unchanged.  This is JS
`s.replace(pat, '')` with a string (non-regex) pattern, which replaces
only the first occurrence. -/
def removeFirst (pat : List Char) : List Char → List Char
  | [] => []
  | c :: t =>
    if pat.isPrefixOf (c :: t) then List.drop pat.length (c :: t)
    else c :: removeFirst pat t

/-- JS `s.replace(pat, '')` on strings (first occurrence only). -/
def jsReplaceOnce (s pat : String) : String := ⟨removeFirst pat.data s.data⟩

/-- JS `s.toLowerCase()`; for the characters relevant to the `.pdf` suffix
check this agrees with full Unicode lowercasing. -/
def jsToLower (s : String) : String := ⟨s.data.map Char.toLower⟩

/-- JS `s.endsWith(suf)`. -/
def jsEndsWith (s suf : String) : Bool := suf.data.isSuffixOf s.data

/-- JS `s.startsWith(pat)`. -/
def jsStartsWith (s pat : String) : Bool := pat.data.isPrefixOf s.data

/-- Modelled from the spec's words, for comparison with the code in claim C6:
"message with the `error: ` prefix stripped" read as removing `pre` only
when it is the leading prefix of `s`. -/
def stripIfLeading (pre s : String) : String :=
  if pre.data.isPrefixOf s.data then ⟨s.data.drop pre.data.length⟩ else s

/-! ## Transport layer: `api.ts` `fetchWithErrorHandling` -/

/-- The decoded JSON error body of a non-2xx response (`errorData`); each
field may be absent. -/
structure ErrBody where
  error : Option String
  detail : Option String

/-- What the underlying `fetch` call did: rejected with a transport-level
error carrying a message, or resolved with a response of the given HTTP
status whose body decoded to `body` (`none` when `response.json()` failed,
matching the `.catch(() => null)` in the source). -/
inductive FetchOutcome where
  | netFail (msg : String)
  | resp (status : Nat) (body : Option ErrBody)

/-- Result of `fetchWithErrorHandling` as observed by callers: a success
(`noContent` is true for a 204 response, which returns `null`), or a
rejection carrying an error message. -/
inductive ApiResult where
  | ok (noContent : Bool)
  | err (message : String)
deriving DecidableEq

/-- JS `response.ok`: status in the range 200–299. -/
def respOk (status : Nat) : Bool := 200 ≤ status && status < 300

/-- `fetchWithErrorHandling` from `api.ts`: a non-ok response throws
`Error(errorData?.error || errorData?.detail || 'HTTP error! status: …')`
inside the `try`, and the surrounding `catch` rewraps every `Error` —
including transport-level fetch rejections — as
`Error('API request failed: ' + message)`. -/
def fetchWithErrorHandling : FetchOutcome → ApiResult
  | .netFail msg => .err ("API request failed: " ++ msg)
  | .resp status body =>
    if respOk status then .ok (status == 204)
    else .err ("API request failed: " ++
      jsOr (body.bind ErrBody.error)
        (jsOr (body.bind ErrBody.detail) ("HTTP error! status: " ++ toString status)))

/-- Modelled from the claim's words, for comparison with the code in claim
C10: "the response body's 'error' field if present, else its 'detail'
field, else a generic HTTP-status text", where "present" is field
presence, not JS truthiness. -/
def claimDetail (status : Nat) (body : Option ErrBody) : String :=
  match body.bind ErrBody.error with
  | some e => e
  | none =>
    match body.bind ErrBody.detail with
    | some d => d
    | none => "HTTP error! status: " ++ toString status

/-! ## `DocumentUploader.tsx`: constants and error messages -/

def MAX_RETRIES : Nat := 30

def RETRY_INTERVAL : Nat := 2000

def MAX_FILE_SIZE : Nat := 10 * 1024 * 1024

namespace ERROR_MESSAGES

def FILE_TOO_LARGE : String := "File size exceeds 10MB limit"

def INVALID_TYPE : String := "Please upload a PDF file"

def CORRUPTED_PDF : String := "The PDF file appears to be corrupted"

def EMPTY_PDF : String := "No text content could be extracted from the PDF"

def UPLOAD_FAILED : String := "Failed to upload document"

def PROCESSING_FAILED : String := "Failed to process document"

def PROCESSING_TIMEOUT : String := "Processing timed out"

def CONNECTION_ERROR : String := "Connection error. Please check your internet connection"

end ERROR_MESSAGES

/-- The shape of the JS error value inspected by the uploader's
`getErrorMessage`: `error?.response?.status`, `error?.response?.data?.detail`
and `error?.message`, each possibly absent. -/
structure JsError where
  responseStatus : Option Nat
  responseDetail : Option String
  message : Option String

/-- The local `errorMessage` of the uploader's `getErrorMessage`:
`error?.response?.data?.detail || error?.message || 'Unknown error'`. -/
def derivedErrorMessage (e : JsError) : String :=
  jsOr e.responseDetail (jsOr e.message "Unknown error")

/-- `getErrorMessage` from `DocumentUploader.tsx`. -/
def getErrorMessage (e : JsError) : String :=
  if e.responseStatus = some 413 then ERROR_MESSAGES.FILE_TOO_LARGE
  else if strIncludes (derivedErrorMessage e) "corrupted" then ERROR_MESSAGES.CORRUPTED_PDF
  else if strIncludes (derivedErrorMessage e) "no text content" then ERROR_MESSAGES.EMPTY_PDF
  else if strIncludes (derivedErrorMessage e) "network" then ERROR_MESSAGES.CONNECTION_ERROR
  else derivedErrorMessage e

/-- `validateFile` from `DocumentUploader.tsx`: extension check first, then
size check; `none` means the file is accepted. -/
def validateFile (name : String) (size : Nat) : Option String :=
  if !(jsEndsWith (jsToLower name) ".pdf") then some ERROR_MESSAGES.INVALID_TYPE
  else if size > MAX_FILE_SIZE then some ERROR_MESSAGES.FILE_TOO_LARGE
  else none

/-! ## `parseProgressFromStatus`: the regex `/processing: .* \((\d+)%\)/`

The JS engine finds the leftmost start position at which the whole pattern
matches; at that position the greedy `.*` takes the longest
line-terminator-free stretch after which ` (`, one or more digits, `%)`
follow.  Backtracking of the greedy `\d+` can never produce a match that
the maximal digit run misses (shrinking the run leaves a digit where `%`
is required), so taking the maximal run is exact. -/

/-- JS `parseInt(ds, 10)` on a non-empty string of decimal digits. -/
def digitsVal (ds : List Char) : Nat :=
  ds.foldl (fun a c => a * 10 + (c.toNat - 48)) 0

/-- A JS line terminator, which `.` does not match: LF, CR, LS, PS. -/
def isLineTerm (c : Char) : Bool :=
  c == '\n' || c == '\r' || c.toNat == 8232 || c.toNat == 8233

/-- Match `(\d+)%\)` against `r` (the part after ` (`): the maximal digit
run must be non-empty and be followed by `%)`. -/
def matchParen (r : List Char) : Option Nat :=
  match r.dropWhile Char.isDigit with
  | '%' :: ')' :: _ =>
    if r.takeWhile Char.isDigit = [] then none
    else some (digitsVal (r.takeWhile Char.isDigit))
  | _ => none

/-- Match ` \((\d+)%\)` at the start of `u`, returning the captured
integer. -/
def matchTail : List Char → Option Nat
  | c1 :: c2 :: r => if c1 = ' ' then if c2 = '(' then matchParen r else none else none
  | _ => none

/-- Length of the longest stretch the dot `.*` may span from the start of
`t`: up to the first line terminator. -/
def dotStarLen (t : List Char) : Nat :=
  (t.takeWhile (fun c => !(isLineTerm c))).length

/-- Greedy `.*` followed by the tail pattern: try consuming `k` characters
first, then shorter stretches, returning the first (longest) success. -/
def greedyFrom (t : List Char) : Nat → Option Nat
  | 0 => matchTail t
  | k + 1 =>
    match matchTail (t.drop (k + 1)) with
    | some v => some v
    | none => greedyFrom t k

/-- Match the whole pattern anchored at the start of `s`: the literal
`processing: `, then the greedy dot-star, then the tail. -/
def tryHere (s : List Char) : Option Nat :=
  if "processing: ".data.isPrefixOf s then
    greedyFrom (s.drop "processing: ".data.length)
      (dotStarLen (s.drop "processing: ".data.length))
  else none

/-- Leftmost match of the pattern anywhere in `s`. -/
def findMatch : List Char → Option Nat
  | [] => none
  | c :: t =>
    match tryHere (c :: t) with
    | some v => some v
    | none => findMatch t

/-- `parseProgressFromStatus` from `DocumentUploader.tsx`: the captured
integer divided by 100, or `null` when the regex does not match. -/
def parseProgressFromStatus (status : String) : Option ℚ :=
  (findMatch status.data).map (fun n => (n : ℚ) / 100)

/-! ## The polling loop of `handleFileUpload` / `checkStatus`

`checkStatus` is an async closure created when `handleFileUpload` runs.  It
reads the React state variable `retryCount` as captured by that closure —
a value fixed for the whole session (called `c0` below) — while
`setRetryCount(prev => prev + 1)` updates the stored React state, which the
closure never re-reads.  Both are modelled: `c0` is a parameter of the step
function, the stored counter is a field of the session state. -/

/-- Outcome of one `checkDocumentStatus` call: the promise resolved with a
report whose `status` field is the given string, or rejected with a
transport-level error (the `catch` branch of `checkStatus`). -/
inductive ReportOutcome where
  | ok (status : String)
  | fail

/-- The React state of one upload session, plus observables of the polling
loop: `calls` counts `checkDocumentStatus` network calls made,
`totalDelay` sums the `setTimeout` delays scheduled so far, `scheduled`
records whether a further `checkStatus` invocation is pending, and
`completedDoc` records whether `onDocumentProcessed` was called. -/
structure SessionState where
  isUploading : Bool
  uploadProgress : String
  progressPercent : ℚ
  retryCount : Nat
  error : Option String
  scheduled : Bool
  calls : Nat
  totalDelay : Nat
  completedDoc : Bool

/-- One firing of `checkStatus` (source lines 90–128): the pending check
runs, the network call resolves or rejects as `r`, and the handlers update
the state.  `c0` is the closure-captured value of `retryCount`. -/
def checkStatusStep (c0 : Nat) (s : SessionState) : ReportOutcome → SessionState
  | .ok st =>
    if st = "completed" then
      { s with isUploading := false, progressPercent := 1, completedDoc := true,
               scheduled := false, calls := s.calls + 1 }
    else if jsStartsWith st "error" then
      { s with isUploading := false, error := some (jsReplaceOnce st "error: "),
               scheduled := false, calls := s.calls + 1 }
    else if c0 ≥ MAX_RETRIES then
      { s with isUploading := false, error := some ERROR_MESSAGES.PROCESSING_TIMEOUT,
               scheduled := false, calls := s.calls + 1 }
    else
      { s with progressPercent :=
                 (match parseProgressFromStatus st with
                  | some p => p
                  | none => s.progressPercent),
               uploadProgress := st, retryCount := s.retryCount + 1,
               scheduled := true, calls := s.calls + 1,
               totalDelay := s.totalDelay + RETRY_INTERVAL }
  | .fail =>
    if c0 ≥ MAX_RETRIES then
      { s with isUploading := false, error := some ERROR_MESSAGES.PROCESSING_FAILED,
               scheduled := false, calls := s.calls + 1 }
    else
      { s with retryCount := s.retryCount + 1, scheduled := true, calls := s.calls + 1,
               totalDelay := s.totalDelay + RETRY_INTERVAL }

/-- Run the polling loop on a list of successive check outcomes: each
outcome is consumed by the pending check if one is scheduled; once no
check is scheduled the session is terminal and nothing further happens. -/
def runChecks (c0 : Nat) : SessionState → List ReportOutcome → SessionState
  | s, [] => s
  | s, r :: rs => if s.scheduled then runChecks c0 (checkStatusStep c0 s r) rs else s

/-- The session state right after a successful upload, when
`handleFileUpload` invokes `checkStatus()` for the first time: the state
setters at lines 66–70 and 81–82 have run (`retryCount` 0,
`progressPercent` 0.1, `uploadProgress` 'Uploading document...'), and the
first check is about to fire. -/
def initialPollState : SessionState :=
  { isUploading := true, uploadProgress := "Uploading document...",
    progressPercent := 1 / 10, retryCount := 0, error := none,
    scheduled := true, calls := 0, totalDelay := 0, completedDoc := false }

/-- A report outcome on which the step neither terminates the session nor
touches `error`/`completedDoc`, and bumps the counters by one cycle. -/
def nonTerminalReport (c0 : Nat) (r : ReportOutcome) : Prop :=
  ∀ s : SessionState,
    (checkStatusStep c0 s r).scheduled = true ∧
    (checkStatusStep c0 s r).error = s.error ∧
    (checkStatusStep c0 s r).completedDoc = s.completedDoc ∧
    (checkStatusStep c0 s r).calls = s.calls + 1 ∧
    (checkStatusStep c0 s r).retryCount = s.retryCount + 1 ∧
    (checkStatusStep c0 s r).totalDelay = s.totalDelay + RETRY_INTERVAL

/-! ## `App.tsx`: current document and `handleDeleteDocument` -/

/-- `pdf_metadata` from `types.ts`. -/
structure PdfMetadata where
  title : String
  author : String
  subject : String
  creator : String
  creation_date : String

/-- `Document.metadata` from `types.ts`. -/
structure DocumentMetadata where
  processed_at : String
  completed_at : Option String
  file_size : Nat
  chunk_count : Nat
  total_pages : Nat
  average_chunk_length : Option Nat
  processing_progress : Option ℚ
  error : Option String
  pdf_metadata : Option PdfMetadata

/-- `Document` from `types.ts`. -/
structure Document where
  document_id : String
  filename : String
  status : String
  error : Option String
  metadata : Option DocumentMetadata

/-- The `App` component state read and written by `handleDeleteDocument`. -/
structure AppState where
  currentDocument : Option Document
  isDeleting : Bool

/-- `App` renders `DocumentUploader` (the Idle entry point of a new
session) exactly when there is no current document. -/
def showsUploader (s : AppState) : Bool := s.currentDocument.isNone

/-- `handleDeleteDocument` from `App.tsx`: no-op without a current
document; otherwise `deleteDocument` is awaited — on success the current
document is cleared, on rejection an alert is shown (the returned `Bool`)
and the document is kept; `finally` resets `isDeleting`. -/
def handleDeleteDocument (s : AppState) (deleteOk : Bool) : AppState × Bool :=
  match s.currentDocument with
  | none => (s, false)
  | some _ =>
    if deleteOk then ({ s with currentDocument := none, isDeleting := false }, false)
    else ({ s with isDeleting := false }, true)


/-! ## General helper lemmas -/

theorem takeWhile_append_all (p : Char → Bool) (xs r : List Char)
    (h : ∀ c ∈ xs, p c = true) :
    (xs ++ r).takeWhile p = xs ++ r.takeWhile p := by
  induction xs with
  | nil => simp
  | cons c t ih =>
    have hc : p c = true := h c (by simp)
    simp only [List.cons_append, List.takeWhile_cons, hc, if_true]
    rw [ih (fun c2 hc2 => h c2 (by simp [hc2]))]

theorem takeWhile_append_stop (p : Char → Bool) (xs : List Char) (x : Char) (r : List Char)
    (hxs : ∀ c ∈ xs, p c = true) (hx : p x = false) :
    (xs ++ x :: r).takeWhile p = xs ∧ (xs ++ x :: r).dropWhile p = x :: r := by
  constructor
  · rw [takeWhile_append_all p xs _ hxs]
    simp [List.takeWhile_cons, hx]
  · induction xs with
    | nil => simp [List.dropWhile_cons, hx]
    | cons c t ih =>
      have hc : p c = true := hxs c (by simp)
      simp only [List.cons_append, List.dropWhile_cons, hc, if_true]
      exact ih (fun c2 hc2 => hxs c2 (by simp [hc2]))

theorem drop_append_big (xs u : List Char) (k : Nat) (h : xs.length ≤ k) :
    (xs ++ u).drop k = u.drop (k - xs.length) := by
  induction xs generalizing k with
  | nil => simp
  | cons c t ih =>
    cases k with
    | zero => simp at h
    | succ k2 =>
      simp only [List.cons_append, List.drop_succ_cons, List.length_cons]
      rw [ih k2 (by simpa using h)]
      congr 1
      omega

theorem removeFirst_of_leading (pat rest : List Char) (hpat : pat ≠ []) :
    removeFirst pat (pat ++ rest) = rest := by
  cases pat with
  | nil => exact absurd rfl hpat
  | cons p pt =>
    have hpre : (p :: pt).isPrefixOf ((p :: pt) ++ rest) = true :=
      List.isPrefixOf_iff_prefix.mpr (List.prefix_append _ _)
    simp only [List.cons_append] at hpre ⊢
    rw [removeFirst, if_pos hpre]
    exact List.drop_left (p :: pt) rest

/-! ## Claim theorems -/

/-- C4: `validateFile` rejects with the InvalidType message exactly when the
lowercased name does not end in `.pdf` (even when the size also exceeds the
limit, since that check runs first), rejects with the FileTooLarge message
exactly when the name ends in `.pdf` and the size strictly exceeds
10,485,760 bytes, and accepts otherwise.  Purity and synchrony are inherent
to the embedding as a total function. -/
theorem c4_validateFile_spec : ∀ (name : String) (size : Nat),
    (validateFile name size = some ERROR_MESSAGES.INVALID_TYPE ↔
      jsEndsWith (jsToLower name) ".pdf" = false) ∧
    (validateFile name size = some ERROR_MESSAGES.FILE_TOO_LARGE ↔
      jsEndsWith (jsToLower name) ".pdf" = true ∧ size > 10485760) ∧
    (validateFile name size = none ↔
      jsEndsWith (jsToLower name) ".pdf" = true ∧ size ≤ 10485760) := by
  intro name size
  have hne : ERROR_MESSAGES.INVALID_TYPE ≠ ERROR_MESSAGES.FILE_TOO_LARGE := by decide
  have hmax : MAX_FILE_SIZE = 10485760 := by decide
  unfold validateFile
  cases h : jsEndsWith (jsToLower name) ".pdf" with
  | false => simp [h, hne]
  | true =>
    by_cases hs : size > MAX_FILE_SIZE
    · simp [h, hs, hne.symm, hmax ▸ hs]
    · simp [h, hs]
      omega

/-- C7 (amended): the uploader's `getErrorMessage` applies its rules in
priority order — status 413 first regardless of message text, then the
`corrupted`, `no text content` and `network` substring rules on the derived
message — but when no rule matches it returns the derived message itself
verbatim, not a generic ServerError. -/
theorem c7_getErrorMessage_priority : ∀ e : JsError,
    (e.responseStatus = some 413 → getErrorMessage e = ERROR_MESSAGES.FILE_TOO_LARGE) ∧
    (e.responseStatus ≠ some 413 →
      (strIncludes (derivedErrorMessage e) "corrupted" = true →
        getErrorMessage e = ERROR_MESSAGES.CORRUPTED_PDF) ∧
      (strIncludes (derivedErrorMessage e) "corrupted" = false →
        strIncludes (derivedErrorMessage e) "no text content" = true →
        getErrorMessage e = ERROR_MESSAGES.EMPTY_PDF) ∧
      (strIncludes (derivedErrorMessage e) "corrupted" = false →
        strIncludes (derivedErrorMessage e) "no text content" = false →
        strIncludes (derivedErrorMessage e) "network" = true →
        getErrorMessage e = ERROR_MESSAGES.CONNECTION_ERROR) ∧
      (strIncludes (derivedErrorMessage e) "corrupted" = false →
        strIncludes (derivedErrorMessage e) "no text content" = false →
        strIncludes (derivedErrorMessage e) "network" = false →
        getErrorMessage e = derivedErrorMessage e)) := by
  intro e
  constructor
  · intro h413
    unfold getErrorMessage
    rw [if_pos h413]
  · intro h413
    refine ⟨fun h1 => ?_, fun h1 h2 => ?_, fun h1 h2 h3 => ?_, fun h1 h2 h3 => ?_⟩ <;>
      simp [getErrorMessage, h413, h1] <;> simp [h2] <;> simp [h3]

/-- Witness for C7: the 413 rule at a concrete input. -/
theorem c7_getErrorMessage_priority_witness :
    getErrorMessage ⟨some 413, some "corrupted stream", none⟩ = ERROR_MESSAGES.FILE_TOO_LARGE :=
  (c7_getErrorMessage_priority ⟨some 413, some "corrupted stream", none⟩).1 rfl

/-- Counterexample for C7 as stated: when no rule matches, the result is
not a fixed generic ServerError value — it is the derived message itself,
so two rule-free inputs give two different results. -/
theorem c7_fallback_cex :
    getErrorMessage ⟨none, some "boom", none⟩ = "boom" ∧
    getErrorMessage ⟨none, none, none⟩ = "Unknown error" ∧
    ("boom" : String) ≠ "Unknown error" := by
  refine ⟨by decide, by decide, by decide⟩

/-- C9: `handleDeleteDocument` with a current document — a rejected delete
keeps the document (and hence its last-known status) and surfaces an alert,
while only a successful delete clears it and returns the app to the Idle
view that shows the uploader. -/
theorem c9_delete_failure_keeps_state : ∀ (s : AppState) (d : Document),
    s.currentDocument = some d →
    ((handleDeleteDocument s false).1.currentDocument = some d ∧
     (handleDeleteDocument s false).2 = true ∧
     showsUploader (handleDeleteDocument s false).1 = false) ∧
    ((handleDeleteDocument s true).1.currentDocument = none ∧
     (handleDeleteDocument s true).2 = false ∧
     showsUploader (handleDeleteDocument s true).1 = true) := by
  intro s d h
  unfold handleDeleteDocument showsUploader
  rw [h]
  simp

/-- Witness for C9 at a concrete state and document. -/
theorem c9_delete_failure_keeps_state_witness :
    ((handleDeleteDocument ⟨some ⟨"abc", "report.pdf", "completed", none, none⟩, false⟩ false).1.currentDocument
        = some ⟨"abc", "report.pdf", "completed", none, none⟩ ∧
      (handleDeleteDocument ⟨some ⟨"abc", "report.pdf", "completed", none, none⟩, false⟩ false).2 = true ∧
      showsUploader (handleDeleteDocument ⟨some ⟨"abc", "report.pdf", "completed", none, none⟩, false⟩ false).1 = false) ∧
    ((handleDeleteDocument ⟨some ⟨"abc", "report.pdf", "completed", none, none⟩, false⟩ true).1.currentDocument = none ∧
      (handleDeleteDocument ⟨some ⟨"abc", "report.pdf", "completed", none, none⟩, false⟩ true).2 = false ∧
      showsUploader (handleDeleteDocument ⟨some ⟨"abc", "report.pdf", "completed", none, none⟩, false⟩ true).1 = true) :=
  c9_delete_failure_keeps_state ⟨some ⟨"abc", "report.pdf", "completed", none, none⟩, false⟩
    ⟨"abc", "report.pdf", "completed", none, none⟩ rfl

/-- C10 (amended): every rejection of `fetchWithErrorHandling` carries the
`API request failed: ` prefix; for a response the detail is the body's
`error` field if truthy, else its `detail` field if truthy, else the
generic HTTP-status text, and, for a transport-level failure, the
underlying error's message. -/
theorem c10_fetch_failure_message : ∀ (fo : FetchOutcome) (m : String),
    fetchWithErrorHandling fo = .err m →
    (∃ d, m = "API request failed: " ++ d) ∧
    (∀ msg, fo = .netFail msg → m = "API request failed: " ++ msg) ∧
    (∀ status body, fo = .resp status body →
      respOk status = false ∧
      m = "API request failed: " ++
        jsOr (body.bind ErrBody.error)
          (jsOr (body.bind ErrBody.detail) ("HTTP error! status: " ++ toString status))) := by
  intro fo m h
  cases fo with
  | netFail msg =>
    simp only [fetchWithErrorHandling] at h
    injection h with h2
    subst h2
    refine ⟨⟨msg, rfl⟩, ?_, ?_⟩
    · intro msg2 he
      injection he with he2
      rw [he2]
    · intro status body he
      exact FetchOutcome.noConfusion he
  | resp status body =>
    simp only [fetchWithErrorHandling] at h
    by_cases hok : respOk status = true
    · rw [if_pos hok] at h
      exact ApiResult.noConfusion h
    · rw [if_neg hok] at h
      injection h with h2
      subst h2
      refine ⟨⟨_, rfl⟩, ?_, ?_⟩
      · intro msg2 he
        exact FetchOutcome.noConfusion he
      · intro status2 body2 he
        injection he with he1 he2
        subst he1
        subst he2
        exact ⟨Bool.not_eq_true _ ▸ hok, rfl⟩

/-- Witness for C10 at a concrete transport failure. -/
theorem c10_fetch_failure_message_witness :
    fetchWithErrorHandling (.netFail "Failed to fetch") = .err "API request failed: Failed to fetch" ∧
    ∃ d, ("API request failed: Failed to fetch" : String) = "API request failed: " ++ d :=
  ⟨rfl, (c10_fetch_failure_message (.netFail "Failed to fetch") "API request failed: Failed to fetch" rfl).1⟩

/-- Counterexample for C10 as stated: on a 500 response whose body has an
`error` field that is present but empty and a `detail` field `boom`, the
code skips the falsy `error` field and uses `boom`, while the claim's
"'error' field if present" reading predicts the empty detail. -/
theorem c10_empty_error_field_cex :
    fetchWithErrorHandling (.resp 500 (some ⟨some "", some "boom"⟩)) =
      .err ("API request failed: " ++ "boom") ∧
    "API request failed: " ++ claimDetail 500 (some ⟨some "", some "boom"⟩) =
      "API request failed: " ++ "" ∧
    ("API request failed: " ++ "boom" : String) ≠ "API request failed: " ++ "" := by
  refine ⟨by decide, by decide, by decide⟩

/-! ## Step-branch lemmas for `checkStatusStep` -/

theorem checkStatusStep_ok_completed (c0 : Nat) (s : SessionState) :
    checkStatusStep c0 s (.ok "completed") =
      { s with isUploading := false, progressPercent := 1, completedDoc := true,
               scheduled := false, calls := s.calls + 1 } := by
  simp only [checkStatusStep]
  rw [if_pos trivial]

theorem checkStatusStep_ok_error (c0 : Nat) (s : SessionState) (st : String)
    (h1 : st ≠ "completed") (h2 : jsStartsWith st "error" = true) :
    checkStatusStep c0 s (.ok st) =
      { s with isUploading := false, error := some (jsReplaceOnce st "error: "),
               scheduled := false, calls := s.calls + 1 } := by
  simp only [checkStatusStep]
  rw [if_neg h1, if_pos h2]

theorem checkStatusStep_ok_timeout (c0 : Nat) (s : SessionState) (st : String)
    (h1 : st ≠ "completed") (h2 : jsStartsWith st "error" = false) (h3 : MAX_RETRIES ≤ c0) :
    checkStatusStep c0 s (.ok st) =
      { s with isUploading := false, error := some ERROR_MESSAGES.PROCESSING_TIMEOUT,
               scheduled := false, calls := s.calls + 1 } := by
  simp only [checkStatusStep]
  rw [if_neg h1, if_neg (by simp [h2]), if_pos h3]

theorem checkStatusStep_ok_poll (c0 : Nat) (s : SessionState) (st : String)
    (h1 : st ≠ "completed") (h2 : jsStartsWith st "error" = false) (h3 : c0 < MAX_RETRIES) :
    checkStatusStep c0 s (.ok st) =
      { s with progressPercent :=
                 (match parseProgressFromStatus st with
                  | some p => p
                  | none => s.progressPercent),
               uploadProgress := st, retryCount := s.retryCount + 1,
               scheduled := true, calls := s.calls + 1,
               totalDelay := s.totalDelay + RETRY_INTERVAL } := by
  simp only [checkStatusStep]
  rw [if_neg h1, if_neg (by simp [h2]), if_neg (Nat.not_le.mpr h3)]

theorem checkStatusStep_fail_timeout (c0 : Nat) (s : SessionState) (h3 : MAX_RETRIES ≤ c0) :
    checkStatusStep c0 s .fail =
      { s with isUploading := false, error := some ERROR_MESSAGES.PROCESSING_FAILED,
               scheduled := false, calls := s.calls + 1 } := by
  simp only [checkStatusStep]
  rw [if_pos h3]

theorem checkStatusStep_fail_poll (c0 : Nat) (s : SessionState) (h3 : c0 < MAX_RETRIES) :
    checkStatusStep c0 s .fail =
      { s with retryCount := s.retryCount + 1, scheduled := true, calls := s.calls + 1,
               totalDelay := s.totalDelay + RETRY_INTERVAL } := by
  simp only [checkStatusStep]
  rw [if_neg (Nat.not_le.mpr h3)]

theorem runChecks_replicate_nonTerminal (c0 : Nat) (r : ReportOutcome)
    (hr : nonTerminalReport c0 r) :
    ∀ (n : Nat) (s : SessionState), s.scheduled = true →
      (runChecks c0 s (List.replicate n r)).scheduled = true ∧
      (runChecks c0 s (List.replicate n r)).error = s.error ∧
      (runChecks c0 s (List.replicate n r)).completedDoc = s.completedDoc ∧
      (runChecks c0 s (List.replicate n r)).calls = s.calls + n ∧
      (runChecks c0 s (List.replicate n r)).retryCount = s.retryCount + n ∧
      (runChecks c0 s (List.replicate n r)).totalDelay = s.totalDelay + RETRY_INTERVAL * n := by
  intro n
  induction n with
  | zero =>
    intro s hs
    simp [runChecks, hs]
  | succ n2 ih =>
    intro s hs
    obtain ⟨e1, e2, e3, e4, e5, e6⟩ := hr s
    obtain ⟨h1, h2, h3, h4, h5, h6⟩ := ih (checkStatusStep c0 s r) e1
    have hrun : runChecks c0 s (List.replicate (n2 + 1) r) =
        runChecks c0 (checkStatusStep c0 s r) (List.replicate n2 r) := by
      simp [List.replicate_succ, runChecks, hs]
    rw [hrun]
    refine ⟨h1, ?_, ?_, ?_, ?_, ?_⟩
    · rw [h2, e2]
    · rw [h3, e3]
    · rw [h4, e4]; omega
    · rw [h5, e5]; omega
    · rw [h6, e6, Nat.mul_succ]; ring

theorem procReport_nonTerminal :
    nonTerminalReport 0 (.ok "processing: extracting text (10%)") := by
  intro s
  rw [checkStatusStep_ok_poll 0 s _ (by decide) (by decide) (by decide)]
  exact ⟨rfl, rfl, rfl, rfl, rfl, rfl⟩

theorem failReport_nonTerminal : nonTerminalReport 0 .fail := by
  intro s
  rw [checkStatusStep_fail_poll 0 s (by decide)]
  exact ⟨rfl, rfl, rfl, rfl, rfl, rfl⟩

/-- C1 (code bug): in a fresh session the closure-captured `retryCount` is
0, so the `retryCount >= MAX_RETRIES` guard compares 0 with 30 forever: for
every number `n` of consecutive non-terminal reports the session has
emitted no error or timeout message, has made exactly `n` network calls
(for `n` = 31, a 31st attempt), all at the fixed 2000 ms interval, and
still has a further check scheduled — the poller never stops. -/
theorem c1_poller_never_times_out : ∀ n : Nat,
    (runChecks 0 initialPollState
        (List.replicate n (.ok "processing: extracting text (10%)"))).error = none ∧
    (runChecks 0 initialPollState
        (List.replicate n (.ok "processing: extracting text (10%)"))).completedDoc = false ∧
    (runChecks 0 initialPollState
        (List.replicate n (.ok "processing: extracting text (10%)"))).scheduled = true ∧
    (runChecks 0 initialPollState
        (List.replicate n (.ok "processing: extracting text (10%)"))).calls = n ∧
    (runChecks 0 initialPollState
        (List.replicate n (.ok "processing: extracting text (10%)"))).totalDelay =
      RETRY_INTERVAL * n := by
  intro n
  obtain ⟨h1, h2, h3, h4, h5, h6⟩ :=
    runChecks_replicate_nonTerminal 0 _ procReport_nonTerminal n initialPollState rfl
  refine ⟨?_, ?_, h1, ?_, ?_⟩
  · rw [h2]; rfl
  · rw [h3]; rfl
  · rw [h4]; simp [initialPollState]
  · rw [h6]; simp [initialPollState]

/-- C2 (code bug): the polling loop has no cancel operation — the
`setTimeout` handle is discarded and no `clearTimeout`/abort exists — so
after every non-terminal check outcome (still-processing report or
transport failure) the next check is unconditionally scheduled; nothing in
the session state can prevent it from firing. -/
theorem c2_no_cancel_always_schedules : ∀ (c0 : Nat) (s : SessionState) (st : String),
    c0 < MAX_RETRIES → st ≠ "completed" → jsStartsWith st "error" = false →
    (checkStatusStep c0 s (.ok st)).scheduled = true ∧
    (checkStatusStep c0 s .fail).scheduled = true := by
  intro c0 s st h3 h1 h2
  rw [checkStatusStep_ok_poll c0 s st h1 h2 h3, checkStatusStep_fail_poll c0 s h3]
  exact ⟨rfl, rfl⟩

/-- Witness for C2 at a concrete session state and report. -/
theorem c2_no_cancel_always_schedules_witness :
    (checkStatusStep 0 initialPollState (.ok "processing: parsing PDF (5%)")).scheduled = true ∧
    (checkStatusStep 0 initialPollState .fail).scheduled = true :=
  c2_no_cancel_always_schedules 0 initialPollState "processing: parsing PDF (5%)"
    (by decide) (by decide) (by decide)

/-- C3 (code bug): each transport-level failure is absorbed — it bumps the
stored retry counter by one and schedules the next check after the fixed
2000 ms interval instead of failing the session — but the budget guard
still compares the stale captured counter, so `n` consecutive transport
failures leave the session with no error emitted, `n` calls made, the
stored counter at `n`, and a further check scheduled: the session never
ends in a timeout (and the branch's terminal message would be
'Failed to process document', not the timeout message, even if the guard
worked). -/
theorem c3_transport_failures_never_time_out : ∀ n : Nat,
    (runChecks 0 initialPollState (List.replicate n .fail)).error = none ∧
    (runChecks 0 initialPollState (List.replicate n .fail)).completedDoc = false ∧
    (runChecks 0 initialPollState (List.replicate n .fail)).scheduled = true ∧
    (runChecks 0 initialPollState (List.replicate n .fail)).calls = n ∧
    (runChecks 0 initialPollState (List.replicate n .fail)).retryCount = n ∧
    (runChecks 0 initialPollState (List.replicate n .fail)).totalDelay =
      RETRY_INTERVAL * n := by
  intro n
  obtain ⟨h1, h2, h3, h4, h5, h6⟩ :=
    runChecks_replicate_nonTerminal 0 _ failReport_nonTerminal n initialPollState rfl
  refine ⟨?_, ?_, h1, ?_, ?_, ?_⟩
  · rw [h2]; rfl
  · rw [h3]; rfl
  · rw [h4]; simp [initialPollState]
  · rw [h5]; simp [initialPollState]
  · rw [h6]; simp [initialPollState]

/-- C6 (amended): a status beginning with `error` stops polling and fails
the session; the message is the status text with the first occurrence of
the substring `error: ` removed (JS `String.replace` semantics), which for
a status of the protocol form `error: <message>` is exactly the leading
prefix stripped. -/
theorem c6_error_status_failure : ∀ (c0 : Nat) (s : SessionState) (st : String),
    jsStartsWith st "error" = true →
    (checkStatusStep c0 s (.ok st)).error = some (jsReplaceOnce st "error: ") ∧
    (checkStatusStep c0 s (.ok st)).scheduled = false ∧
    (checkStatusStep c0 s (.ok st)).isUploading = false ∧
    (∀ rest : String, st = "error: " ++ rest → jsReplaceOnce st "error: " = rest) := by
  intro c0 s st h2
  have h1 : st ≠ "completed" := by
    intro he
    subst he
    exact absurd h2 (by decide)
  rw [checkStatusStep_ok_error c0 s st h1 h2]
  refine ⟨rfl, rfl, rfl, ?_⟩
  intro rest he
  subst he
  unfold jsReplaceOnce
  rw [String.data_append, removeFirst_of_leading _ _ (by decide)]

/-- Witness for C6: the spec's own example status. -/
theorem c6_error_status_failure_witness :
    (checkStatusStep 0 initialPollState (.ok "error: model unavailable")).error =
      some "model unavailable" ∧
    (checkStatusStep 0 initialPollState (.ok "error: model unavailable")).scheduled = false := by
  have h := c6_error_status_failure 0 initialPollState "error: model unavailable" (by decide)
  have h4 : jsReplaceOnce "error: model unavailable" "error: " = "model unavailable" :=
    h.2.2.2 "model unavailable" rfl
  exact ⟨h4 ▸ h.1, h.2.1⟩

/-- Counterexample for C6 as stated: the status `error error: y` begins
with `error` but not with `error: `, so the claimed leading-prefix
stripping would leave it unchanged, yet the code removes the later first
occurrence of `error: ` and fails with `error y`. -/
theorem c6_leading_strip_cex :
    jsStartsWith "error error: y" "error" = true ∧
    (checkStatusStep 0 initialPollState (.ok "error error: y")).error = some "error y" ∧
    stripIfLeading "error: " "error error: y" = "error error: y" ∧
    ("error y" : String) ≠ "error error: y" := by
  refine ⟨by decide, by decide, by decide, by decide⟩

/-! ## Progress bounds (claim C8) -/

theorem step_fail_progress (c0 : Nat) (s : SessionState) :
    (checkStatusStep c0 s .fail).progressPercent = s.progressPercent := by
  by_cases h3 : c0 < MAX_RETRIES
  · rw [checkStatusStep_fail_poll c0 s h3]
  · rw [checkStatusStep_fail_timeout c0 s (Nat.not_lt.mp h3)]

theorem step_progress_cases (c0 : Nat) (s : SessionState) (st : String) :
    (checkStatusStep c0 s (.ok st)).progressPercent = s.progressPercent ∨
    (checkStatusStep c0 s (.ok st)).progressPercent = 1 ∨
    ∃ n : Nat, findMatch st.data = some n ∧
      (checkStatusStep c0 s (.ok st)).progressPercent = (n : ℚ) / 100 := by
  by_cases h1 : st = "completed"
  · subst h1
    rw [checkStatusStep_ok_completed]
    right; left; rfl
  · cases hjs : jsStartsWith st "error" with
    | true =>
      rw [checkStatusStep_ok_error c0 s st h1 hjs]
      left; rfl
    | false =>
      by_cases h3 : c0 < MAX_RETRIES
      · rw [checkStatusStep_ok_poll c0 s st h1 hjs h3]
        cases hfm : findMatch st.data with
        | none =>
          have hp : parseProgressFromStatus st = none := by
            unfold parseProgressFromStatus
            rw [hfm]
            rfl
          left
          simp only [hp]
        | some n =>
          have hp : parseProgressFromStatus st = some ((n : ℚ) / 100) := by
            unfold parseProgressFromStatus
            rw [hfm]
            rfl
          right; right
          exact ⟨n, by simp [hfm], by simp only [hp]⟩
      · rw [checkStatusStep_ok_timeout c0 s st h1 hjs (Nat.not_lt.mp h3)]
        left; rfl

/-- C8 (amended): every value the loop stores as `progressPercent` is the
previous value, the constant 1 (completion), or a parsed integer
percentage divided by 100 — the code does not clamp, so the fraction stays
in [0,1] exactly under the assumption that every parsed percentage is at
most 100, as the protocol's 0–100 range provides. -/
theorem c8_progress_invariant :
    (∀ (c0 : Nat) (s : SessionState) (st : String),
      (checkStatusStep c0 s (.ok st)).progressPercent = s.progressPercent ∨
      (checkStatusStep c0 s (.ok st)).progressPercent = 1 ∨
      ∃ n : Nat, findMatch st.data = some n ∧
        (checkStatusStep c0 s (.ok st)).progressPercent = (n : ℚ) / 100) ∧
    (∀ (c0 : Nat) (s : SessionState),
      (checkStatusStep c0 s .fail).progressPercent = s.progressPercent) ∧
    (∀ (c0 : Nat) (s : SessionState) (rs : List ReportOutcome),
      0 ≤ s.progressPercent → s.progressPercent ≤ 1 →
      (∀ r ∈ rs, ∀ st, r = ReportOutcome.ok st →
        ∀ n, findMatch st.data = some n → n ≤ 100) →
      0 ≤ (runChecks c0 s rs).progressPercent ∧
      (runChecks c0 s rs).progressPercent ≤ 1) := by
  refine ⟨step_progress_cases, step_fail_progress, ?_⟩
  intro c0 s rs
  induction rs generalizing s with
  | nil =>
    intro h0 h1 _hb
    exact ⟨h0, h1⟩
  | cons r rest ih =>
    intro h0 h1 hb
    by_cases hs : s.scheduled = true
    · have hrun : runChecks c0 s (r :: rest) = runChecks c0 (checkStatusStep c0 s r) rest := by
        simp [runChecks, hs]
      rw [hrun]
      have hstep : 0 ≤ (checkStatusStep c0 s r).progressPercent ∧
          (checkStatusStep c0 s r).progressPercent ≤ 1 := by
        cases r with
        | fail =>
          rw [step_fail_progress]
          exact ⟨h0, h1⟩
        | ok st =>
          rcases step_progress_cases c0 s st with h | h | ⟨n, hn, h⟩
          · rw [h]; exact ⟨h0, h1⟩
          · rw [h]; norm_num
          · rw [h]
            have hn100 : n ≤ 100 := hb (.ok st) (by simp) st rfl n hn
            constructor
            · positivity
            · rw [div_le_one (by norm_num : (0 : ℚ) < 100)]
              exact_mod_cast hn100
      exact ih (checkStatusStep c0 s r) hstep.1 hstep.2
        (fun r2 hr2 => hb r2 (by simp [hr2]))
    · have hrun : runChecks c0 s (r :: rest) = s := by
        simp [runChecks, hs]
      rw [hrun]
      exact ⟨h0, h1⟩

/-- Witness for C8 at a concrete bounded run. -/
theorem c8_progress_invariant_witness :
    0 ≤ (runChecks 0 initialPollState [ReportOutcome.ok "processing: a (50%)"]).progressPercent ∧
    (runChecks 0 initialPollState [ReportOutcome.ok "processing: a (50%)"]).progressPercent ≤ 1 := by
  refine c8_progress_invariant.2.2 0 initialPollState [ReportOutcome.ok "processing: a (50%)"]
    (by norm_num [initialPollState]) (by norm_num [initialPollState]) ?_
  intro r hr st hst n hn
  have hr2 : r = ReportOutcome.ok "processing: a (50%)" := by simpa using hr
  subst hr2
  injection hst with hst2
  subst hst2
  have h50 : findMatch ("processing: a (50%)").data = some 50 := by decide
  rw [h50] at hn
  injection hn with hn2
  omega

/-- Counterexample for C8 as stated: the reachable still-polling state
after the report `processing: x (150%)` stores the parsed value 150/100 =
3/2, which exceeds 1 — the stored fraction is not confined to [0,1]. -/
theorem c8_progress_above_one_cex :
    (checkStatusStep 0 initialPollState (.ok "processing: x (150%)")).scheduled = true ∧
    (checkStatusStep 0 initialPollState (.ok "processing: x (150%)")).progressPercent = 3 / 2 ∧
    ¬ ((3 / 2 : ℚ) ≤ 1) := by
  have hf : findMatch ("processing: x (150%)").data = some 150 := by decide
  have hp : parseProgressFromStatus "processing: x (150%)" = some ((150 : ℚ) / 100) := by
    unfold parseProgressFromStatus
    rw [hf]
    rfl
  have hstep := checkStatusStep_ok_poll 0 initialPollState "processing: x (150%)"
    (by decide) (by decide) (by decide)
  refine ⟨?_, ?_, by norm_num⟩
  · rw [hstep]
  · rw [hstep]
    simp only [hp]
    norm_num

/-! ## Soundness and completeness lemmas for the progress regex -/

theorem matchTail_cons_cons (r : List Char) : matchTail (' ' :: '(' :: r) = matchParen r := by
  simp [matchTail]

theorem matchParen_builder (dgs : List Char) (hd : dgs ≠ [])
    (hdig : ∀ c ∈ dgs, Char.isDigit c = true) :
    matchParen (dgs ++ '%' :: ')' :: []) = some (digitsVal dgs) := by
  obtain ⟨htake, hdrop⟩ := takeWhile_append_stop Char.isDigit dgs '%' [')'] hdig (by decide)
  unfold matchParen
  rw [hdrop]
  show (if (dgs ++ '%' :: ')' :: []).takeWhile Char.isDigit = [] then none
        else some (digitsVal ((dgs ++ '%' :: ')' :: []).takeWhile Char.isDigit))) =
      some (digitsVal dgs)
  rw [htake, if_neg hd]

theorem matchTail_sound (u : List Char) (v : Nat) (h : matchTail u = some v) :
    ∃ dgs post, u = ' ' :: '(' :: (dgs ++ '%' :: ')' :: post) ∧ dgs ≠ [] ∧
      (∀ c ∈ dgs, Char.isDigit c = true) ∧ v = digitsVal dgs := by
  cases u with
  | nil => exact Option.noConfusion h
  | cons c1 u1 =>
    cases u1 with
    | nil => exact Option.noConfusion h
    | cons c2 r =>
      simp only [matchTail] at h
      by_cases hc1 : c1 = ' '
      · rw [if_pos hc1] at h
        by_cases hc2 : c2 = '('
        · rw [if_pos hc2] at h
          subst hc1
          subst hc2
          unfold matchParen at h
          split at h
          · rename_i post heq
            by_cases hemp : r.takeWhile Char.isDigit = []
            · rw [if_pos hemp] at h
              exact Option.noConfusion h
            · rw [if_neg hemp] at h
              injection h with h2
              refine ⟨r.takeWhile Char.isDigit, post, ?_, hemp, ?_, h2.symm⟩
              · have hr : r.takeWhile Char.isDigit ++ r.dropWhile Char.isDigit = r :=
                  List.takeWhile_append_dropWhile Char.isDigit r
                conv_lhs => rw [← hr, heq]
              · intro c hc
                exact List.mem_takeWhile_imp hc
          · exact Option.noConfusion h
        · rw [if_neg hc2] at h
          exact Option.noConfusion h
      · rw [if_neg hc1] at h
        exact Option.noConfusion h

theorem matchTail_none_of_no_space (u : List Char) (hu : ∀ c ∈ u, c ≠ ' ') :
    matchTail u = none := by
  cases u with
  | nil => rfl
  | cons c1 u1 =>
    cases u1 with
    | nil => rfl
    | cons c2 r =>
      have hc1 : c1 ≠ ' ' := hu c1 (by simp)
      simp only [matchTail]
      rw [if_neg hc1]

theorem greedyFrom_sound (t : List Char) : ∀ (K v : Nat), greedyFrom t K = some v →
    ∃ k, k ≤ K ∧ matchTail (t.drop k) = some v := by
  intro K
  induction K with
  | zero =>
    intro v h
    simp only [greedyFrom] at h
    exact ⟨0, Nat.le_refl 0, by simpa using h⟩
  | succ K2 ih =>
    intro v h
    simp only [greedyFrom] at h
    cases hm : matchTail (t.drop (K2 + 1)) with
    | some v2 =>
      rw [hm] at h
      injection h with h2
      exact ⟨K2 + 1, Nat.le_refl _, h2 ▸ hm⟩
    | none =>
      rw [hm] at h
      obtain ⟨k, hk, hmk⟩ := ih v h
      exact ⟨k, Nat.le_succ_of_le hk, hmk⟩

theorem greedyFrom_hits (t : List Char) (k0 v : Nat)
    (hsome : matchTail (t.drop k0) = some v)
    (hnone : ∀ k, k0 < k → matchTail (t.drop k) = none) :
    ∀ K, k0 ≤ K → greedyFrom t K = some v := by
  intro K
  induction K with
  | zero =>
    intro hK
    have hk0 : k0 = 0 := Nat.le_zero.mp hK
    subst hk0
    simp only [greedyFrom]
    simpa using hsome
  | succ K2 ih =>
    intro hK
    by_cases he : k0 = K2 + 1
    · subst he
      simp only [greedyFrom]
      rw [hsome]
    · have hlt : k0 ≤ K2 := by omega
      simp only [greedyFrom]
      rw [hnone (K2 + 1) (by omega)]
      exact ih hlt

theorem tryHere_sound (s : List Char) (v : Nat) (h : tryHere s = some v) :
    ∃ mid rest, s = "processing: ".data ++ mid ++ rest ∧
      (∀ c ∈ mid, isLineTerm c = false) ∧ matchTail rest = some v := by
  unfold tryHere at h
  by_cases hpre : "processing: ".data.isPrefixOf s = true
  · rw [if_pos hpre] at h
    obtain ⟨t0, ht0⟩ := List.isPrefixOf_iff_prefix.mp hpre
    have hdrop : s.drop "processing: ".data.length = t0 := by
      rw [← ht0]
      exact List.drop_left _ _
    rw [hdrop] at h
    obtain ⟨k, hk, hmk⟩ := greedyFrom_sound t0 _ v h
    refine ⟨t0.take k, t0.drop k, ?_, ?_, hmk⟩
    · rw [List.append_assoc, List.take_append_drop]
      exact ht0.symm
    · have hkd : k ≤ (t0.takeWhile (fun c => !(isLineTerm c))).length := by
        simpa [dotStarLen] using hk
      have hpref : t0.takeWhile (fun c => !(isLineTerm c)) <+: t0 :=
        List.takeWhile_prefix _
      have htw : t0.takeWhile (fun c => !(isLineTerm c)) =
          t0.take (t0.takeWhile (fun c => !(isLineTerm c))).length :=
        List.prefix_iff_eq_take.mp hpref
      have heq : (t0.takeWhile (fun c => !(isLineTerm c))).take k = t0.take k := by
        conv_lhs => rw [htw]
        rw [List.take_take, Nat.min_eq_left hkd]
      intro c hc
      rw [← heq] at hc
      have hcTW := List.take_subset _ _ hc
      have hp := List.mem_takeWhile_imp hcTW
      simpa using hp
  · rw [if_neg hpre] at h
    exact Option.noConfusion h

theorem findMatch_sound : ∀ (s : List Char) (v : Nat), findMatch s = some v →
    ∃ pre mid rest, s = pre ++ "processing: ".data ++ mid ++ rest ∧
      (∀ c ∈ mid, isLineTerm c = false) ∧ matchTail rest = some v := by
  intro s
  induction s with
  | nil =>
    intro v h
    exact Option.noConfusion h
  | cons c t ih =>
    intro v h
    simp only [findMatch] at h
    cases hth : tryHere (c :: t) with
    | some v2 =>
      rw [hth] at h
      injection h with h2
      obtain ⟨mid, rest, he, hm, hmt⟩ := tryHere_sound (c :: t) v2 hth
      exact ⟨[], mid, rest, by simpa using he, hm, h2 ▸ hmt⟩
    | none =>
      rw [hth] at h
      obtain ⟨pre, mid, rest, he, hm, hmt⟩ := ih v h
      exact ⟨c :: pre, mid, rest, by simp [he], hm, hmt⟩

theorem findMatch_of_tryHere (s : List Char) (v : Nat) (h : tryHere s = some v) :
    findMatch s = some v := by
  cases s with
  | nil => exact Option.noConfusion h
  | cons c t =>
    simp only [findMatch]
    rw [h]

theorem tail_drop_no_match (dgs : List Char) (hdig : ∀ c ∈ dgs, Char.isDigit c = true) :
    ∀ j, 1 ≤ j → matchTail ((' ' :: '(' :: (dgs ++ '%' :: ')' :: [])).drop j) = none := by
  intro j hj
  apply matchTail_none_of_no_space
  intro c hc
  have hdropEq : (' ' :: '(' :: (dgs ++ '%' :: ')' :: [])).drop j =
      ('(' :: (dgs ++ '%' :: ')' :: [])).drop (j - 1) := by
    cases j with
    | zero => omega
    | succ j2 => simp [List.drop_succ_cons]
  rw [hdropEq] at hc
  have hsub : c ∈ '(' :: (dgs ++ '%' :: ')' :: []) := List.drop_subset _ _ hc
  rcases List.mem_cons.mp hsub with h1 | h2
  · subst h1
    decide
  · rcases List.mem_append.mp h2 with h3 | h4
    · have hd := hdig c h3
      intro he
      subst he
      exact absurd hd (by decide)
    · have : c = '%' ∨ c = ')' := by simpa using h4
      rcases this with h5 | h5 <;> subst h5 <;> decide

theorem findMatch_builder (txt dgs : List Char)
    (hd : dgs ≠ []) (hdig : ∀ c ∈ dgs, Char.isDigit c = true)
    (htxt : ∀ c ∈ txt, isLineTerm c = false) :
    findMatch ("processing: ".data ++ (txt ++ (' ' :: '(' :: (dgs ++ '%' :: ')' :: [])))) =
      some (digitsVal dgs) := by
  apply findMatch_of_tryHere
  unfold tryHere
  have hpre : "processing: ".data.isPrefixOf
      ("processing: ".data ++ (txt ++ (' ' :: '(' :: (dgs ++ '%' :: ')' :: [])))) = true :=
    List.isPrefixOf_iff_prefix.mpr (List.prefix_append _ _)
  rw [if_pos hpre, List.drop_left]
  have hsome : matchTail ((txt ++ (' ' :: '(' :: (dgs ++ '%' :: ')' :: []))).drop txt.length) =
      some (digitsVal dgs) := by
    rw [List.drop_left]
    rw [matchTail_cons_cons]
    exact matchParen_builder dgs hd hdig
  have hnone : ∀ k, txt.length < k →
      matchTail ((txt ++ (' ' :: '(' :: (dgs ++ '%' :: ')' :: []))).drop k) = none := by
    intro k hk
    rw [drop_append_big txt _ k (Nat.le_of_lt hk)]
    exact tail_drop_no_match dgs hdig (k - txt.length) (by omega)
  apply greedyFrom_hits _ txt.length _ hsome hnone
  have hall : ∀ c ∈ txt, (fun c => !(isLineTerm c)) c = true := by
    intro c hc
    simp [htxt c hc]
  have : dotStarLen (txt ++ (' ' :: '(' :: (dgs ++ '%' :: ')' :: []))) =
      (txt ++ (' ' :: '(' :: (dgs ++ '%' :: ')' :: []))
        |>.takeWhile (fun c => !(isLineTerm c))).length := rfl
  rw [this, takeWhile_append_all _ txt _ hall]
  simp

/-- C5: the progress extractor returns the captured integer divided by 100
whenever the status contains the pattern `processing: <free text>
(<integer>%)` (free text without line terminators, as the regex dot
requires), and returns `none` otherwise — whenever it returns a value the
status really decomposes along the pattern, so a non-matching status yields
the distinguished no-progress value, which is distinct from a parsed 0%.
It is a total function, so it never raises.  In particular
`processing: embedding chunks (42%)` yields 42/100 and `completed` yields
no progress. -/
theorem c5_parseProgress_spec :
    parseProgressFromStatus "processing: embedding chunks (42%)" = some (42 / 100 : ℚ) ∧
    parseProgressFromStatus "completed" = none ∧
    parseProgressFromStatus "completed" ≠ some 0 ∧
    (∀ txt dgs : String, dgs.data ≠ [] → (∀ c ∈ dgs.data, Char.isDigit c = true) →
      (∀ c ∈ txt.data, isLineTerm c = false) →
      parseProgressFromStatus ("processing: " ++ txt ++ " (" ++ dgs ++ "%)") =
        some ((digitsVal dgs.data : ℚ) / 100)) ∧
    (∀ (st : String) (q : ℚ), parseProgressFromStatus st = some q →
      ∃ pre mid dgs post, st.data = pre ++ "processing: ".data ++ mid ++
          (' ' :: '(' :: (dgs ++ '%' :: ')' :: post)) ∧
        dgs ≠ [] ∧ (∀ c ∈ dgs, Char.isDigit c = true) ∧
        (∀ c ∈ mid, isLineTerm c = false) ∧ q = (digitsVal dgs : ℚ) / 100) := by
  refine ⟨?_, by decide, by decide, ?_, ?_⟩
  · have hf : findMatch ("processing: embedding chunks (42%)").data = some 42 := by decide
    unfold parseProgressFromStatus
    rw [hf]
    norm_num
  · intro txt dgs hd hdig htxt
    have hdata : ("processing: " ++ txt ++ " (" ++ dgs ++ "%)").data =
        "processing: ".data ++ (txt.data ++ (' ' :: '(' :: (dgs.data ++ '%' :: ')' :: []))) := by
      simp only [String.data_append, List.append_assoc]
      rfl
    unfold parseProgressFromStatus
    rw [hdata, findMatch_builder txt.data dgs.data hd hdig htxt]
    rfl
  · intro st q h
    unfold parseProgressFromStatus at h
    cases hfm : findMatch st.data with
    | none =>
      rw [hfm] at h
      exact Option.noConfusion h
    | some v =>
      rw [hfm] at h
      injection h with h2
      obtain ⟨pre, mid, rest, he, hm, hmt⟩ := findMatch_sound st.data v hfm
      obtain ⟨dgs, post, hrest, hdne, hdig, hv⟩ := matchTail_sound rest v hmt
      refine ⟨pre, mid, dgs, post, ?_, hdne, hdig, hm, ?_⟩
      · rw [he, hrest]
      · rw [← h2, hv]

/-- Witness for C5: the builder contract at a concrete status string. -/
theorem c5_parseProgress_spec_witness :
    parseProgressFromStatus ("processing: " ++ "chunking" ++ " (" ++ "7" ++ "%)") =
      some ((digitsVal "7".data : ℚ) / 100) :=
  c5_parseProgress_spec.2.2.2.1 "chunking" "7" (by decide) (by decide) (by decide)

